import Mathlib

/-!
Shallow embedding of the AI Habit Tracker scripts.

Weights are embedded as rationals (the scripts manipulate decimal constants
0.10, 0.05, 0.15, 0.5, 1.0, 3.0), timestamps as integers (milliseconds since
the epoch), and the local calendar day of a timestamp as an abstract function
`calDay : ℤ → ℤ` (the scripts compare `Date.toDateString()` values).
Snapshots are association lists from habit id to record, mirroring the
JSON object `data.habits`; the feedback script's array-of-records variant is
embedded as a plain list of records carrying their own `id` field.
-/

/-- One completion marker pushed onto `habit.history` by `completeHabit`:
`{date, action}`. -/
structure HEntry where
  date : ℤ
  action : String
deriving DecidableEq

/-- One feedback entry `{type, timestamp, note}` pushed onto
`feedback.history` by `logFeedback`. -/
structure FEntry where
  type : String
  timestamp : ℤ
  note : String
deriving DecidableEq

/-- The lazily initialized `habit.feedback` sub-record:
`{positive, negative, history}`. -/
structure FeedbackData where
  positive : ℤ
  negative : ℤ
  history : List FEntry
deriving DecidableEq

/-- A habit record as stored in `habits.json`. -/
structure Habit where
  id : String
  name : String
  description : String
  frequency : String
  weight : ℚ
  streak : ℤ
  lastCompleted : Option ℤ
  history : List HEntry
  feedback : Option FeedbackData
deriving DecidableEq

namespace HabitCheck

/-- `WEIGHT_INCREMENT = 0.10` from scripts/habit-check.js. -/
def WEIGHT_INCREMENT : ℚ := 0.10

/-- `WEIGHT_DECREMENT = 0.05` from scripts/habit-check.js. -/
def WEIGHT_DECREMENT : ℚ := 0.05

/-- `MAX_WEIGHT = 3.0` from scripts/habit-check.js. -/
def MAX_WEIGHT : ℚ := 3.0

/-- `MIN_WEIGHT = 1.0` from scripts/habit-check.js. -/
def MIN_WEIGHT : ℚ := 1.0

/-- `DAY_MS = 24 * 60 * 60 * 1000` from scripts/habit-check.js. -/
def DAY_MS : ℤ := 24 * 60 * 60 * 1000

/-- `isCompletedToday(habit)`: false when `lastCompleted` is null, otherwise
compares the calendar day of `lastCompleted` with the calendar day of now
(`last.toDateString() === now.toDateString()`). -/
def isCompletedToday (calDay : ℤ → ℤ) (habit : Habit) (now : ℤ) : Bool :=
  match habit.lastCompleted with
  | none => false
  | some last => calDay last == calDay now

/-- `isOverdue(habit)`: false when `lastCompleted` is null, otherwise
`(now - last) > DAY_MS`. -/
def isOverdue (habit : Habit) (now : ℤ) : Bool :=
  match habit.lastCompleted with
  | none => false
  | some last => decide (DAY_MS < now - last)

/-- The guard of the `applyDecay` loop:
`isOverdue(habit) && habit.streak > 0`. -/
def decayCond (habit : Habit) (now : ℤ) : Bool :=
  isOverdue habit now && decide (0 < habit.streak)

/-- The body of the `applyDecay` loop for one record: when the habit is
overdue and has a positive streak, `weight = Math.max(MIN_WEIGHT,
weight - WEIGHT_DECREMENT)` and `streak = 0`; otherwise unchanged. -/
def decayHabit (habit : Habit) (now : ℤ) : Habit :=
  if decayCond habit now then
    { habit with weight := max MIN_WEIGHT (habit.weight - WEIGHT_DECREMENT),
                 streak := 0 }
  else habit

/-- `applyDecay(habits)`: sweeps every record of the snapshot, decaying each
overdue positive-streak habit in place, and returns the mutated snapshot
together with the `decayed` flag the function returns. -/
def applyDecay (habits : List (String × Habit)) (now : ℤ) :
    List (String × Habit) × Bool :=
  match habits with
  | [] => ([], false)
  | (id, habit) :: rest =>
    let r := applyDecay rest now
    if decayCond habit now then
      ((id, { habit with
                weight := max MIN_WEIGHT (habit.weight - WEIGHT_DECREMENT),
                streak := 0 }) :: r.1, true)
    else ((id, habit) :: r.1, r.2)

/-- Number of records of the snapshot that satisfy the decay condition
(`isOverdue(habit) && habit.streak > 0`) at time `now`. -/
def decayedCount (habits : List (String × Habit)) (now : ℤ) : ℕ :=
  (habits.filter fun p => decayCond p.2 now).length

/-- Lookup `data.habits[habitId]` in the snapshot. -/
def findHabit : List (String × Habit) → String → Option Habit
  | [], _ => none
  | p :: rest, habitId =>
    if p.1 == habitId then some p.2 else findHabit rest habitId

/-- In-place replacement of the record at key `habitId`. -/
def setHabit : List (String × Habit) → String → Habit → List (String × Habit)
  | [], _, _ => []
  | p :: rest, habitId, habit =>
    (if p.1 == habitId then (p.1, habit) else p) :: setHabit rest habitId habit

/-- The successful-completion update of `completeHabit`:
`lastCompleted = now`, `streak += 1`,
`weight = Math.min(MAX_WEIGHT, weight + WEIGHT_INCREMENT)`, and a
`{date: lastCompleted, action: 'completed'}` marker pushed onto `history`. -/
def completeHabitRecord (habit : Habit) (now : ℤ) : Habit :=
  { habit with
      lastCompleted := some now,
      streak := habit.streak + 1,
      weight := min MAX_WEIGHT (habit.weight + WEIGHT_INCREMENT),
      history := habit.history ++ [{ date := now, action := "completed" }] }

/-- Outcome reported by `completeHabit`. -/
inductive CompleteResult where
  | notFound
  | alreadyCompleted
  | completed (streak : ℤ) (weight : ℚ)
deriving DecidableEq

/-- `completeHabit(habitId)`: `NotFound` if the id is absent;
`AlreadyCompleted` with no mutation if `isCompletedToday(habit)`; otherwise
the success update followed by a save. -/
def completeHabit (calDay : ℤ → ℤ) (habits : List (String × Habit))
    (habitId : String) (now : ℤ) :
    CompleteResult × List (String × Habit) :=
  match findHabit habits habitId with
  | none => (.notFound, habits)
  | some habit =>
    if isCompletedToday calDay habit now then (.alreadyCompleted, habits)
    else
      let habit := completeHabitRecord habit now
      (.completed habit.streak habit.weight, setHabit habits habitId habit)

/-- The `--complete <id>` dispatch branch of scripts/habit-check.js: it
invokes `completeHabit(habitId)` directly. -/
def completeCommand (calDay : ℤ → ℤ) (habits : List (String × Habit))
    (habitId : String) (now : ℤ) :
    CompleteResult × List (String × Habit) :=
  completeHabit calDay habits habitId now

/-- Modelled from the spec: the spec's description of the complete command,
"complete a named habit (triggers decay sweep, then CompleteHabit)" — a decay
sweep over the whole snapshot followed by `CompleteHabit` on the named habit.
Stated for comparison with `completeCommand`, which embeds the source. -/
def completeCommandSpecPipeline (calDay : ℤ → ℤ)
    (habits : List (String × Habit)) (habitId : String) (now : ℤ) :
    CompleteResult × List (String × Habit) :=
  completeHabit calDay (applyDecay habits now).1 habitId now

end HabitCheck

namespace LogFeedbackJS

/-- `POSITIVE_BOOST = 0.15` from scripts/log-feedback.js. -/
def POSITIVE_BOOST : ℚ := 0.15

/-- `NEGATIVE_PENALTY = 0.1` from scripts/log-feedback.js. -/
def NEGATIVE_PENALTY : ℚ := 0.1

/-- `MAX_WEIGHT = 3.0` from scripts/log-feedback.js. -/
def MAX_WEIGHT : ℚ := 3.0

/-- `MIN_WEIGHT = 0.5` from scripts/log-feedback.js (can go lower than 1.0
with negative feedback). -/
def MIN_WEIGHT : ℚ := 0.5

/-- The per-record body of `logFeedback`: lazy initialization of `feedback`,
the count and weight update (`(habit.weight || 1)` falls back to 1 when the
stored weight is 0), the history push, and the truncation to the most recent
20 entries (`history.slice(-20)` when the length exceeds 20). -/
def logFeedbackHabit (habit : Habit) (isPositive : Bool) (note : String)
    (now : ℤ) : Habit :=
  let fb := habit.feedback.getD { positive := 0, negative := 0, history := [] }
  let feedbackEntry : FEntry :=
    { type := if isPositive then "positive" else "negative",
      timestamp := now, note := note }
  let fb :=
    if isPositive then { fb with positive := fb.positive + 1 }
    else { fb with negative := fb.negative + 1 }
  let weight :=
    if isPositive then
      min ((if habit.weight = 0 then 1 else habit.weight) + POSITIVE_BOOST)
        MAX_WEIGHT
    else
      max ((if habit.weight = 0 then 1 else habit.weight) - NEGATIVE_PENALTY)
        MIN_WEIGHT
  let hist := fb.history ++ [feedbackEntry]
  let hist := if 20 < hist.length then hist.drop (hist.length - 20) else hist
  { habit with weight := weight, feedback := some { fb with history := hist } }

/-- The feedback score computed by `logFeedback`:
`total > 0 ? (positive - negative) / total : 0`. The `toFixed(2)` the script
applies when printing the score is display formatting (like the
`weight.toFixed(2)` beside it) and is not part of the value. -/
def feedbackScore (fb : FeedbackData) : ℚ :=
  let total := fb.positive + fb.negative
  if 0 < total then ((fb.positive - fb.negative : ℤ) : ℚ) / ((total : ℤ) : ℚ)
  else 0

/-- In-place replacement of the first record whose `id` matches, mirroring
mutation through the reference returned by `habits.find(...)`. -/
def replaceFirst (habits : List Habit) (habitId : String) (habit : Habit) :
    List Habit :=
  match habits with
  | [] => []
  | h :: rest =>
    if h.id == habitId then habit :: rest
    else h :: replaceFirst rest habitId habit

/-- `logFeedback(habitsData, habitId, isPositive, note)` on the
array-of-records snapshot: false (no mutation) when the id is absent,
otherwise the per-record update and true. -/
def logFeedback (habitsData : List Habit) (habitId : String)
    (isPositive : Bool) (note : String) (now : ℤ) : List Habit × Bool :=
  match habitsData.find? (fun h => h.id == habitId) with
  | none => (habitsData, false)
  | some habit =>
    (replaceFirst habitsData habitId (logFeedbackHabit habit isPositive note now),
     true)

/-- The feedback tally of a record, with the lazy
`{positive: 0, negative: 0, history: []}` default when absent. -/
def fbOf (habit : Habit) : FeedbackData :=
  habit.feedback.getD { positive := 0, negative := 0, history := [] }

/-- The feedback history of a record, empty when `feedback` is absent
(matching the lazy `{..., history: []}` initialization). -/
def fbHistory (habit : Habit) : List FEntry :=
  match habit.feedback with
  | none => []
  | some fb => fb.history

/-- One feedback event: polarity, note and timestamp. -/
structure FbEvent where
  isPositive : Bool
  note : String
  time : ℤ
deriving DecidableEq

/-- The `feedback.history` entry a feedback event produces. -/
def entryOf (e : FbEvent) : FEntry :=
  { type := if e.isPositive then "positive" else "negative",
    timestamp := e.time, note := e.note }

/-- Apply a sequence of feedback events to one record, oldest first. -/
def applyFeedbackList (habit : Habit) (evs : List FbEvent) : Habit :=
  evs.foldl (fun h e => logFeedbackHabit h e.isPositive e.note e.time) habit

/-- The last 20 elements of a list (`slice(-20)`). -/
def lastTwenty (l : List FEntry) : List FEntry :=
  l.drop (l.length - 20)

end LogFeedbackJS

namespace DailySummary

/-- `Math.round`: the nearest integer, halves rounded up. -/
def jsRound (x : ℚ) : ℤ := ⌊x + 1 / 2⌋

/-- The completion-rate statistic of `generateSummary`: among the
daily-frequency habits, the percentage completed today, rounded;
0 when there are no daily habits. -/
def completionRate (calDay : ℤ → ℤ) (habits : List (String × Habit))
    (now : ℤ) : ℤ :=
  let dailyHabits := habits.filter fun p => p.2.frequency == "daily"
  let completed :=
    dailyHabits.filter fun p => HabitCheck.isCompletedToday calDay p.2 now
  if 0 < dailyHabits.length then
    jsRound (((completed.length : ℚ) / (dailyHabits.length : ℚ)) * 100)
  else 0

end DailySummary

namespace Engine

/-- One Habit State Engine event applied to a single record. -/
inductive Event where
  | complete (now : ℤ)
  | decay (now : ℤ)
  | feedback (isPositive : Bool) (note : String) (now : ℤ)
deriving DecidableEq

/-- Whether an event is a feedback event. -/
def Event.isFeedback : Event → Bool
  | .feedback _ _ _ => true
  | _ => false

/-- The per-record effect of one event: `CompleteHabit` is a no-op when the
record is already completed today, `ApplyDecay` is the decay-loop body, and
`LogFeedback` is the per-record feedback update. -/
def applyEvent (calDay : ℤ → ℤ) (habit : Habit) : Event → Habit
  | .complete now =>
    if HabitCheck.isCompletedToday calDay habit now then habit
    else HabitCheck.completeHabitRecord habit now
  | .decay now => HabitCheck.decayHabit habit now
  | .feedback isPositive note now =>
    LogFeedbackJS.logFeedbackHabit habit isPositive note now

/-- Apply a finite sequence of events to one record, oldest first. -/
def applyEvents (calDay : ℤ → ℤ) (habit : Habit) (es : List Event) : Habit :=
  es.foldl (applyEvent calDay) habit

end Engine

namespace Examples

/-- A concrete local-calendar-day function: the UTC day index of a
millisecond timestamp. -/
def exCalDay : ℤ → ℤ := fun t => t / 86400000

/-- A freshly created habit record: `weight 1.0, streak 0,
lastCompleted null, history []`, no feedback. -/
def baseHabit : Habit :=
  { id := "diary", name := "Daily diary", description := "write the diary",
    frequency := "daily", weight := 1, streak := 0, lastCompleted := none,
    history := [], feedback := none }

/-- A habit last completed at time 0 with streak 0 and weight 2. -/
def streakZeroHabit : Habit :=
  { baseHabit with
      id := "alpha", name := "Alpha", weight := 2, streak := 0,
      lastCompleted := some 0 }

/-- A habit last completed at time 0 with a positive streak and weight 2. -/
def overdueHabit : Habit :=
  { baseHabit with
      id := "alpha", name := "Alpha", weight := 2, streak := 5,
      lastCompleted := some 0 }

/-- A second overdue positive-streak habit. -/
def overdueHabitB : Habit :=
  { overdueHabit with id := "gamma", name := "Gamma" }

/-- A never-completed habit eligible for completion. -/
def freshHabit : Habit :=
  { baseHabit with id := "beta", name := "Beta" }

/-- A snapshot holding one overdue habit and one habit to complete. -/
def twoHabitSnap : List (String × Habit) :=
  [("alpha", overdueHabit), ("beta", freshHabit)]

/-- An overdue positive-streak habit whose weight was pushed below 1.0
(to 0.7) by negative feedback. -/
def lowWeightHabit : Habit :=
  { baseHabit with
      id := "delta", name := "Delta", weight := 0.7, streak := 3,
      lastCompleted := some 0 }

/-- The `memory-check` habit of the spec scenario: weight 1.0, no feedback. -/
def memoryCheckHabit : Habit :=
  { baseHabit with id := "memory-check", name := "Memory check" }

/-- A feedback tally with 3 positive and 1 negative signals. -/
def fbExample : FeedbackData := { positive := 3, negative := 1, history := [] }

/-- A snapshot of 10 daily habits, 3 of them completed at time 0. -/
def tenDailySnap : List (String × Habit) :=
  [("h1", { baseHabit with id := "h1", lastCompleted := some 0 }),
   ("h2", { baseHabit with id := "h2", lastCompleted := some 0 }),
   ("h3", { baseHabit with id := "h3", lastCompleted := some 0 }),
   ("h4", { baseHabit with id := "h4" }),
   ("h5", { baseHabit with id := "h5" }),
   ("h6", { baseHabit with id := "h6" }),
   ("h7", { baseHabit with id := "h7" }),
   ("h8", { baseHabit with id := "h8" }),
   ("h9", { baseHabit with id := "h9" }),
   ("h10", { baseHabit with id := "h10" })]

/-- A sample event sequence: a completion, then a decay sweep 25 hours
later, then a negative feedback. -/
def esExample : List Engine.Event :=
  [.complete 0, .decay 90000000, .feedback false "late" 90000001]

/-- 25 identical positive feedback events. -/
def fbEvents25 : List LogFeedbackJS.FbEvent :=
  List.replicate 25 { isPositive := true, note := "", time := 0 }

end Examples

section Helpers

open HabitCheck LogFeedbackJS

/-- Unfolding one step of an event sequence. -/
theorem applyEvents_cons (calDay : ℤ → ℤ) (habit : Habit) (e : Engine.Event)
    (es : List Engine.Event) :
    Engine.applyEvents calDay habit (e :: es) =
      Engine.applyEvents calDay (Engine.applyEvent calDay habit e) es := rfl

/-- Looking up the key that was just set returns the new record, provided
the key was present. -/
theorem findHabit_setHabit_self (habits : List (String × Habit))
    (habitId : String) (h h' : Habit)
    (hfind : findHabit habits habitId = some h) :
    findHabit (setHabit habits habitId h') habitId = some h' := by
  induction habits with
  | nil => simp [findHabit] at hfind
  | cons p rest ih =>
    cases hp : (p.1 == habitId) with
    | true => simp [findHabit, setHabit, hp]
    | false =>
      simp only [findHabit, setHabit, hp, Bool.false_eq_true, if_false]
        at hfind ⊢
      exact ih hfind

/-- Looking up any other key is unaffected by `setHabit`. -/
theorem findHabit_setHabit_ne (habits : List (String × Habit))
    (habitId otherId : String) (h' : Habit) (hne : otherId ≠ habitId) :
    findHabit (setHabit habits habitId h') otherId =
      findHabit habits otherId := by
  induction habits with
  | nil => simp [findHabit, setHabit]
  | cons p rest ih =>
    cases hp : (p.1 == habitId) with
    | true =>
      have hp' : p.1 = habitId := by simpa using hp
      have ho : (p.1 == otherId) = false := by
        simp [hp']
        exact fun hc => hne hc.symm
      simp [findHabit, setHabit, hp, ho, ih]
    | false =>
      cases ho : (p.1 == otherId) with
      | true => simp [findHabit, setHabit, hp, ho]
      | false => simp [findHabit, setHabit, hp, ho, ih]

/-- Lookup commutes with a key-preserving map over the snapshot. -/
theorem findHabit_map (habits : List (String × Habit)) (habitId : String)
    (f : Habit → Habit) :
    findHabit (habits.map fun p => (p.1, f p.2)) habitId =
      (findHabit habits habitId).map f := by
  induction habits with
  | nil => simp [findHabit]
  | cons p rest ih =>
    cases hp : (p.1 == habitId) with
    | true => simp [findHabit, hp]
    | false => simp [findHabit, hp, ih]

/-- The snapshot returned by the decay sweep is the per-record decay rule
mapped over the snapshot. -/
theorem applyDecay_fst (habits : List (String × Habit)) (now : ℤ) :
    (applyDecay habits now).1 =
      habits.map fun p => (p.1, decayHabit p.2 now) := by
  induction habits with
  | nil => simp [applyDecay]
  | cons p rest ih =>
    obtain ⟨id, habit⟩ := p
    cases hc : decayCond habit now with
    | true => simp [applyDecay, decayHabit, hc, ih]
    | false => simp [applyDecay, decayHabit, hc, ih]

/-- The flag returned by the decay sweep is true exactly when at least one
record satisfies the decay condition. -/
theorem applyDecay_flag (habits : List (String × Habit)) (now : ℤ) :
    (applyDecay habits now).2 = true ↔ 0 < decayedCount habits now := by
  induction habits with
  | nil => simp [applyDecay, decayedCount]
  | cons p rest ih =>
    obtain ⟨id, habit⟩ := p
    cases hc : decayCond habit now with
    | true => simp [applyDecay, decayedCount, List.filter_cons, hc]
    | false =>
      simp only [applyDecay, decayedCount, List.filter_cons, hc,
        Bool.false_eq_true, if_false]
      simpa [decayedCount] using ih

/-- Looking up a record after a decay sweep gives the decayed record. -/
theorem findHabit_applyDecay (habits : List (String × Habit)) (habitId : String)
    (now : ℤ) :
    HabitCheck.findHabit (HabitCheck.applyDecay habits now).1 habitId =
      (HabitCheck.findHabit habits habitId).map
        (fun h => HabitCheck.decayHabit h now) := by
  rw [applyDecay_fst]
  exact findHabit_map habits habitId (fun h => HabitCheck.decayHabit h now)

/-- The last-20 window never exceeds 20 entries. -/
theorem lastTwenty_length (l : List FEntry) :
    (lastTwenty l).length ≤ 20 := by
  simp only [lastTwenty, List.length_drop]
  omega

/-- A list of at most 20 entries is its own last-20 window. -/
theorem lastTwenty_of_le (l : List FEntry) (hl : l.length ≤ 20) :
    lastTwenty l = l := by
  have h0 : l.length - 20 = 0 := by omega
  simp [lastTwenty, h0]

/-- The conditional truncation used by `logFeedback` agrees with the
unconditional last-20 window. -/
theorem trim_eq_lastTwenty (l : List FEntry) :
    (if 20 < l.length then l.drop (l.length - 20) else l) = lastTwenty l := by
  by_cases h : 20 < l.length
  · simp [h, lastTwenty]
  · rw [if_neg h, lastTwenty_of_le l (by omega)]

/-- Truncating after pushing onto an already-truncated history is the same
as truncating the full history after the push. -/
theorem lastTwenty_append_single (L : List FEntry) (e : FEntry) :
    lastTwenty (lastTwenty L ++ [e]) = lastTwenty (L ++ [e]) := by
  by_cases h : L.length ≤ 20
  · rw [lastTwenty_of_le L h]
  · unfold lastTwenty
    have hlen : (L.drop (L.length - 20)).length = 20 := by
      simp only [List.length_drop]
      omega
    have h1 : (L.drop (L.length - 20) ++ [e]).length - 20 = 1 := by
      simp [hlen]
    have h2 : (L ++ [e]).length - 20 = L.length + 1 - 20 := by
      simp [List.length_append]
    rw [h1, h2]
    rw [List.drop_append_of_le_length (by omega : 1 ≤ (L.drop (L.length - 20)).length)]
    rw [List.drop_append_of_le_length (by omega : L.length + 1 - 20 ≤ L.length)]
    rw [List.drop_drop]
    have h3 : L.length - 20 + 1 = L.length + 1 - 20 := by omega
    rw [h3]

/-- The history produced by one feedback event is the truncated push of its
entry onto the previous history. -/
theorem fbHistory_logFeedbackHabit (habit : Habit) (e : FbEvent) :
    fbHistory (logFeedbackHabit habit e.isPositive e.note e.time) =
      lastTwenty (fbHistory habit ++ [entryOf e]) := by
  rw [← trim_eq_lastTwenty]
  cases hfb : habit.feedback with
  | none =>
    cases hb : e.isPositive <;>
      simp [logFeedbackHabit, fbHistory, entryOf, hfb, hb]
  | some fb =>
    cases hb : e.isPositive <;>
      simp [logFeedbackHabit, fbHistory, entryOf, hfb, hb]

/-- Over any sequence of feedback events, the history stays the last-20
window of the full entry stream. -/
theorem fbHistory_applyFeedbackList (evs : List FbEvent) :
    ∀ (habit : Habit) (L : List FEntry),
      fbHistory habit = lastTwenty L →
      fbHistory (applyFeedbackList habit evs) =
        lastTwenty (L ++ evs.map entryOf) := by
  induction evs with
  | nil =>
    intro habit L hL
    simpa [applyFeedbackList] using hL
  | cons e evs ih =>
    intro habit L hL
    have step :
        fbHistory (logFeedbackHabit habit e.isPositive e.note e.time) =
          lastTwenty (L ++ [entryOf e]) := by
      rw [fbHistory_logFeedbackHabit, hL, lastTwenty_append_single]
    have := ih (logFeedbackHabit habit e.isPositive e.note e.time)
      (L ++ [entryOf e]) step
    simpa [applyFeedbackList, List.append_assoc] using this

/-- One event keeps the weight within the global band `[0.5, 3]`. -/
theorem applyEvent_weight_bounds (calDay : ℤ → ℤ) (habit : Habit)
    (e : Engine.Event) (hlo : (1 : ℚ) / 2 ≤ habit.weight)
    (hhi : habit.weight ≤ 3) :
    (1 : ℚ) / 2 ≤ (Engine.applyEvent calDay habit e).weight ∧
      (Engine.applyEvent calDay habit e).weight ≤ 3 := by
  have hinc : WEIGHT_INCREMENT = 1 / 10 := by norm_num [WEIGHT_INCREMENT]
  have hdec : WEIGHT_DECREMENT = 1 / 20 := by norm_num [WEIGHT_DECREMENT]
  have hmaxc : HabitCheck.MAX_WEIGHT = 3 := by norm_num [HabitCheck.MAX_WEIGHT]
  have hminc : HabitCheck.MIN_WEIGHT = 1 := by norm_num [HabitCheck.MIN_WEIGHT]
  have hboost : POSITIVE_BOOST = 3 / 20 := by norm_num [POSITIVE_BOOST]
  have hpen : NEGATIVE_PENALTY = 1 / 10 := by norm_num [NEGATIVE_PENALTY]
  have hmaxf : LogFeedbackJS.MAX_WEIGHT = 3 := by
    norm_num [LogFeedbackJS.MAX_WEIGHT]
  have hminf : LogFeedbackJS.MIN_WEIGHT = 1 / 2 := by
    norm_num [LogFeedbackJS.MIN_WEIGHT]
  have hne : ¬ habit.weight = 0 := by
    intro h0
    rw [h0] at hlo
    norm_num at hlo
  cases e with
  | complete now =>
    cases hc : isCompletedToday calDay habit now with
    | true =>
      simp only [Engine.applyEvent, hc, if_true]
      exact ⟨hlo, hhi⟩
    | false =>
      simp only [Engine.applyEvent, hc, Bool.false_eq_true, if_false,
        completeHabitRecord, hinc, hmaxc]
      constructor
      · rw [le_min_iff]
        constructor
        · norm_num
        · linarith
      · exact min_le_left _ _
  | decay now =>
    cases hc : decayCond habit now with
    | true =>
      simp only [Engine.applyEvent, decayHabit, hc, if_true, hdec, hminc]
      constructor
      · exact le_trans (by norm_num) (le_max_left _ _)
      · rw [max_le_iff]
        constructor
        · norm_num
        · linarith
    | false =>
      simp only [Engine.applyEvent, decayHabit, hc, Bool.false_eq_true,
        if_false]
      exact ⟨hlo, hhi⟩
  | feedback isPositive note now =>
    cases hb : isPositive with
    | true =>
      simp only [Engine.applyEvent, logFeedbackHabit, hb, if_true, hne,
        if_false, hboost, hmaxf]
      constructor
      · rw [le_min_iff]
        constructor
        · linarith
        · norm_num
      · exact min_le_right _ _
    | false =>
      simp only [Engine.applyEvent, logFeedbackHabit, hb,
        Bool.false_eq_true, if_false, hne, hpen, hminf]
      constructor
      · exact le_max_right _ _
      · rw [max_le_iff]
        constructor
        · linarith
        · norm_num

/-- A non-feedback event keeps the weight within `[1, 3]`. -/
theorem applyEvent_weight_bounds_noFeedback (calDay : ℤ → ℤ) (habit : Habit)
    (e : Engine.Event) (hfb : e.isFeedback = false)
    (hlo : (1 : ℚ) ≤ habit.weight) (hhi : habit.weight ≤ 3) :
    (1 : ℚ) ≤ (Engine.applyEvent calDay habit e).weight ∧
      (Engine.applyEvent calDay habit e).weight ≤ 3 := by
  have hinc : WEIGHT_INCREMENT = 1 / 10 := by norm_num [WEIGHT_INCREMENT]
  have hdec : WEIGHT_DECREMENT = 1 / 20 := by norm_num [WEIGHT_DECREMENT]
  have hmaxc : HabitCheck.MAX_WEIGHT = 3 := by norm_num [HabitCheck.MAX_WEIGHT]
  have hminc : HabitCheck.MIN_WEIGHT = 1 := by norm_num [HabitCheck.MIN_WEIGHT]
  cases e with
  | complete now =>
    cases hc : isCompletedToday calDay habit now with
    | true =>
      simp only [Engine.applyEvent, hc, if_true]
      exact ⟨hlo, hhi⟩
    | false =>
      simp only [Engine.applyEvent, hc, Bool.false_eq_true, if_false,
        completeHabitRecord, hinc, hmaxc]
      constructor
      · rw [le_min_iff]
        constructor
        · norm_num
        · linarith
      · exact min_le_left _ _
  | decay now =>
    cases hc : decayCond habit now with
    | true =>
      simp only [Engine.applyEvent, decayHabit, hc, if_true, hdec, hminc]
      constructor
      · exact le_max_left _ _
      · rw [max_le_iff]
        constructor
        · norm_num
        · linarith
    | false =>
      simp only [Engine.applyEvent, decayHabit, hc, Bool.false_eq_true,
        if_false]
      exact ⟨hlo, hhi⟩
  | feedback isPositive note now =>
    simp [Engine.Event.isFeedback] at hfb

end Helpers

section Claims

open HabitCheck LogFeedbackJS DailySummary in
/-- Claim C1: for every habit record whose weight lies in the admissible band
and every finite sequence of Engine events (CompleteHabit, ApplyDecay,
LogFeedback) applied to it, the weight stays within [0.5, 3.0]; if the
sequence contains no feedback event, the weight stays within [1.0, 3.0]. -/
theorem claimC1_weight_bounds (calDay : ℤ → ℤ) (habit : Habit)
    (es : List Engine.Event) (hlo : (1 : ℚ) / 2 ≤ habit.weight)
    (hhi : habit.weight ≤ 3) :
    ((1 : ℚ) / 2 ≤ (Engine.applyEvents calDay habit es).weight ∧
      (Engine.applyEvents calDay habit es).weight ≤ 3) ∧
    ((∀ e ∈ es, e.isFeedback = false) → (1 : ℚ) ≤ habit.weight →
      (1 : ℚ) ≤ (Engine.applyEvents calDay habit es).weight ∧
        (Engine.applyEvents calDay habit es).weight ≤ 3) := by
  induction es generalizing habit with
  | nil =>
    exact ⟨⟨hlo, hhi⟩, fun _ h1 => ⟨h1, hhi⟩⟩
  | cons e es ih =>
    have hb := applyEvent_weight_bounds calDay habit e hlo hhi
    have main := ih (Engine.applyEvent calDay habit e) hb.1 hb.2
    rw [applyEvents_cons]
    refine ⟨main.1, ?_⟩
    intro hnf h1
    have he := hnf e (List.mem_cons_self e es)
    have hb2 := applyEvent_weight_bounds_noFeedback calDay habit e he h1 hhi
    exact main.2 (fun x hx => hnf x (List.mem_cons_of_mem e hx)) hb2.1

/-- Witness for C1: a fresh habit under a completion, a decay sweep 25 hours
later, and a negative feedback. -/
theorem claimC1_weight_bounds_witness :
    ((1 : ℚ) / 2 ≤ Examples.baseHabit.weight ∧
      Examples.baseHabit.weight ≤ 3) ∧
    (((1 : ℚ) / 2 ≤
        (Engine.applyEvents Examples.exCalDay Examples.baseHabit
          Examples.esExample).weight ∧
      (Engine.applyEvents Examples.exCalDay Examples.baseHabit
          Examples.esExample).weight ≤ 3) ∧
     ((∀ e ∈ Examples.esExample, e.isFeedback = false) →
      (1 : ℚ) ≤ Examples.baseHabit.weight →
      (1 : ℚ) ≤
        (Engine.applyEvents Examples.exCalDay Examples.baseHabit
          Examples.esExample).weight ∧
      (Engine.applyEvents Examples.exCalDay Examples.baseHabit
          Examples.esExample).weight ≤ 3)) :=
  ⟨⟨by norm_num [Examples.baseHabit], by norm_num [Examples.baseHabit]⟩,
   claimC1_weight_bounds Examples.exCalDay Examples.baseHabit
     Examples.esExample (by norm_num [Examples.baseHabit])
     (by norm_num [Examples.baseHabit])⟩

open HabitCheck in
/-- Claim C2 (amended): for every habit in the snapshot with a positive
streak, a decay sweep at a `now` exactly 25 hours (90000000 ms) after
`lastCompleted` sets
the weight to `max(MIN_WEIGHT, weight - 0.05)` (a reduction by exactly 0.05,
floored at the minimum weight 1.0) and resets the streak to 0; a sweep at a
`now` exactly 23 hours (82800000 ms) after `lastCompleted` leaves the
record unchanged. -/
theorem claimC2_decay_boundary (habits : List (String × Habit))
    (habitId : String) (habit : Habit) (last : ℤ)
    (hfind : findHabit habits habitId = some habit)
    (hlast : habit.lastCompleted = some last) :
    ((0 < habit.streak →
        findHabit (applyDecay habits (last + 90000000)).1 habitId =
          some { habit with
                   weight := max MIN_WEIGHT (habit.weight - WEIGHT_DECREMENT),
                   streak := 0 }) ∧
      findHabit (applyDecay habits (last + 82800000)).1 habitId =
        some habit) ∧
    (MIN_WEIGHT = 1 ∧ WEIGHT_DECREMENT = (0.05 : ℚ)) := by
  have hov25 : isOverdue habit (last + 90000000) = true := by
    simp only [isOverdue, hlast, decide_eq_true_eq]
    unfold DAY_MS
    omega
  have hov23 : isOverdue habit (last + 82800000) = false := by
    simp only [isOverdue, hlast, decide_eq_false_iff_not]
    unfold DAY_MS
    omega
  refine ⟨⟨?_, ?_⟩, ⟨by norm_num [MIN_WEIGHT], by norm_num [WEIGHT_DECREMENT]⟩⟩
  · intro hs
    have hcond : decayCond habit (last + 90000000) = true := by
      unfold decayCond
      rw [hov25]
      simpa using hs
    rw [findHabit_applyDecay, hfind]
    simp [decayHabit, hcond]
  · have hcond : decayCond habit (last + 82800000) = false := by
      unfold decayCond
      rw [hov23]
      simp
    rw [findHabit_applyDecay, hfind]
    simp [decayHabit, hcond]

open HabitCheck in
/-- Counterexample to C2 as stated: a habit exactly 25 hours overdue but
with streak 0 (and weight 2) is left completely unchanged by the decay
sweep, so its weight is not reduced by 0.05. -/
theorem claimC2_counterexample :
    findHabit (applyDecay [("alpha", Examples.streakZeroHabit)]
        (90000000)).1 "alpha" = some Examples.streakZeroHabit ∧
    Examples.streakZeroHabit.weight = 2 ∧
    Examples.streakZeroHabit.streak = 0 ∧
    Examples.streakZeroHabit.lastCompleted = some 0 ∧
    (2 : ℚ) ≠ max MIN_WEIGHT ((2 : ℚ) - WEIGHT_DECREMENT) := by
  refine ⟨by decide, by decide, by decide, by decide, ?_⟩
  norm_num [MIN_WEIGHT, WEIGHT_DECREMENT, max_def]

open HabitCheck in
/-- Witness for C2 at a habit with streak 5, weight 2, last completed at
time 0. -/
theorem claimC2_decay_boundary_witness :
    (findHabit [("alpha", Examples.overdueHabit)] "alpha" =
        some Examples.overdueHabit ∧
      Examples.overdueHabit.lastCompleted = some 0 ∧
      0 < Examples.overdueHabit.streak) ∧
    (((0 < Examples.overdueHabit.streak →
        findHabit (applyDecay [("alpha", Examples.overdueHabit)]
            ((0 : ℤ) + 90000000)).1 "alpha" =
          some { Examples.overdueHabit with
                   weight := max MIN_WEIGHT
                     (Examples.overdueHabit.weight - WEIGHT_DECREMENT),
                   streak := 0 }) ∧
      findHabit (applyDecay [("alpha", Examples.overdueHabit)]
          ((0 : ℤ) + 82800000)).1 "alpha" =
        some Examples.overdueHabit) ∧
    (MIN_WEIGHT = 1 ∧ WEIGHT_DECREMENT = (0.05 : ℚ))) :=
  ⟨⟨by decide, by decide, by decide⟩,
   claimC2_decay_boundary [("alpha", Examples.overdueHabit)] "alpha"
     Examples.overdueHabit 0 (by decide) (by decide)⟩

open HabitCheck in
/-- Claim C3: after a successful CompleteHabit at time `now`, a second
CompleteHabit call for the same habit at any time `later` on the same local
calendar day is a no-op: it reports AlreadyCompleted and returns the
snapshot unchanged (streak, weight, lastCompleted and history included). -/
theorem claimC3_complete_twice_noop (calDay : ℤ → ℤ)
    (habits : List (String × Habit)) (habitId : String) (now later : ℤ)
    (s : ℤ) (w : ℚ) (habits' : List (String × Habit))
    (hfirst : completeHabit calDay habits habitId now =
      (.completed s w, habits'))
    (hday : calDay later = calDay now) :
    completeHabit calDay habits' habitId later =
      (.alreadyCompleted, habits') := by
  unfold completeHabit at hfirst
  split at hfirst
  next => simp at hfirst
  next habit hfind =>
    split at hfirst
    next => simp at hfirst
    next hc =>
      simp only [Prod.mk.injEq] at hfirst
      have hsnap : habits' =
          setHabit habits habitId (completeHabitRecord habit now) :=
        hfirst.2.symm
      have hfind' : findHabit habits' habitId =
          some (completeHabitRecord habit now) := by
        rw [hsnap]
        exact findHabit_setHabit_self habits habitId habit _ hfind
      have hdone : isCompletedToday calDay (completeHabitRecord habit now)
          later = true := by
        simp [isCompletedToday, completeHabitRecord, hday]
      unfold completeHabit
      rw [hfind']
      simp [hdone]

open HabitCheck in
/-- Witness for C3: completing the fresh `beta` habit at time 0 and again
one hour later the same day. -/
theorem claimC3_complete_twice_noop_witness :
    (completeHabit Examples.exCalDay [("beta", Examples.freshHabit)] "beta" 0 =
      (.completed (Examples.freshHabit.streak + 1)
        (min MAX_WEIGHT (Examples.freshHabit.weight + WEIGHT_INCREMENT)),
       setHabit [("beta", Examples.freshHabit)] "beta"
         (completeHabitRecord Examples.freshHabit 0)) ∧
     Examples.exCalDay 3600000 = Examples.exCalDay 0) ∧
    completeHabit Examples.exCalDay
        (setHabit [("beta", Examples.freshHabit)] "beta"
          (completeHabitRecord Examples.freshHabit 0)) "beta" 3600000 =
      (.alreadyCompleted,
       setHabit [("beta", Examples.freshHabit)] "beta"
         (completeHabitRecord Examples.freshHabit 0)) :=
  ⟨⟨by rfl, by decide⟩,
   claimC3_complete_twice_noop Examples.exCalDay
     [("beta", Examples.freshHabit)] "beta" 0 3600000
     (Examples.freshHabit.streak + 1)
     (min MAX_WEIGHT (Examples.freshHabit.weight + WEIGHT_INCREMENT))
     (setHabit [("beta", Examples.freshHabit)] "beta"
       (completeHabitRecord Examples.freshHabit 0))
     (by rfl) (by decide)⟩

open HabitCheck in
/-- Claim C4: for a habit present in the snapshot and not yet completed on
the current calendar day, a successful CompleteHabit increments the streak
by exactly 1, sets the weight to min(weight + 0.10, 3.0), sets lastCompleted
to now, appends exactly one completion marker to history, and changes
nothing else on the record. -/
theorem claimC4_complete_success (calDay : ℤ → ℤ)
    (habits : List (String × Habit)) (habitId : String) (now : ℤ)
    (habit : Habit) (hfind : findHabit habits habitId = some habit)
    (hnot : isCompletedToday calDay habit now = false) :
    ∃ habit',
      findHabit (completeHabit calDay habits habitId now).2 habitId =
        some habit' ∧
      habit'.streak = habit.streak + 1 ∧
      habit'.weight = min (habit.weight + 0.10) 3 ∧
      habit'.lastCompleted = some now ∧
      habit'.history =
        habit.history ++ [{ date := now, action := "completed" }] ∧
      habit'.id = habit.id ∧ habit'.name = habit.name ∧
      habit'.description = habit.description ∧
      habit'.frequency = habit.frequency ∧
      habit'.feedback = habit.feedback := by
  have hsnap : (completeHabit calDay habits habitId now).2 =
      setHabit habits habitId (completeHabitRecord habit now) := by
    unfold completeHabit
    rw [hfind]
    simp [hnot]
  refine ⟨completeHabitRecord habit now, ?_, rfl, ?_, rfl, rfl, rfl, rfl,
    rfl, rfl, rfl⟩
  · rw [hsnap]
    exact findHabit_setHabit_self habits habitId habit _ hfind
  · show min MAX_WEIGHT (habit.weight + WEIGHT_INCREMENT) = _
    rw [min_comm]
    norm_num [MAX_WEIGHT, WEIGHT_INCREMENT]

open HabitCheck in
/-- Witness for C4: completing the fresh `beta` habit at time 0. -/
theorem claimC4_complete_success_witness :
    (findHabit [("beta", Examples.freshHabit)] "beta" =
        some Examples.freshHabit ∧
      isCompletedToday Examples.exCalDay Examples.freshHabit 0 = false) ∧
    (∃ habit',
      findHabit (completeHabit Examples.exCalDay
          [("beta", Examples.freshHabit)] "beta" 0).2 "beta" =
        some habit' ∧
      habit'.streak = Examples.freshHabit.streak + 1 ∧
      habit'.weight = min (Examples.freshHabit.weight + 0.10) 3 ∧
      habit'.lastCompleted = some 0 ∧
      habit'.history = Examples.freshHabit.history ++
        [{ date := 0, action := "completed" }] ∧
      habit'.id = Examples.freshHabit.id ∧
      habit'.name = Examples.freshHabit.name ∧
      habit'.description = Examples.freshHabit.description ∧
      habit'.frequency = Examples.freshHabit.frequency ∧
      habit'.feedback = Examples.freshHabit.feedback) :=
  ⟨⟨by rfl, by rfl⟩,
   claimC4_complete_success Examples.exCalDay [("beta", Examples.freshHabit)]
     "beta" 0 Examples.freshHabit (by rfl) (by rfl)⟩

open LogFeedbackJS in
/-- Claim C5: the feedback score equals
(positive - negative) / (positive + negative) when the total count is
positive and 0 when the total is zero; a first-ever negative feedback on a
habit with weight 1.0 yields weight 0.90, feedback.negative = 1 and
score -1.0. -/
theorem claimC5_feedback_score (fb : FeedbackData) :
    ((0 < fb.positive + fb.negative →
        feedbackScore fb =
          ((fb.positive : ℚ) - (fb.negative : ℚ)) /
            ((fb.positive : ℚ) + (fb.negative : ℚ))) ∧
      (fb.positive + fb.negative = 0 → feedbackScore fb = 0)) ∧
    ((logFeedbackHabit Examples.memoryCheckHabit false "forgot" 0).weight =
        0.90 ∧
      FeedbackData.negative
        (fbOf (logFeedbackHabit Examples.memoryCheckHabit false "forgot" 0)) =
        1 ∧
      feedbackScore
          (fbOf (logFeedbackHabit Examples.memoryCheckHabit false "forgot" 0))
        = -1) := by
  constructor
  · constructor
    · intro htot
      rw [feedbackScore, if_pos htot]
      push_cast
      ring
    · intro htot
      rw [feedbackScore, if_neg (by omega)]
  · refine ⟨?_, by rfl, ?_⟩
    · show max ((if Examples.memoryCheckHabit.weight = 0 then 1
          else Examples.memoryCheckHabit.weight) - NEGATIVE_PENALTY)
        MIN_WEIGHT = 0.90
      norm_num [Examples.memoryCheckHabit, Examples.baseHabit,
        NEGATIVE_PENALTY, MIN_WEIGHT, max_def]
    · rw [feedbackScore, if_pos (by decide)]
      norm_num [fbOf, logFeedbackHabit, Examples.memoryCheckHabit,
        Examples.baseHabit]

open LogFeedbackJS in
/-- Witness for C5 at a tally of 3 positive and 1 negative signals and at
the empty tally. -/
theorem claimC5_feedback_score_witness :
    (0 < Examples.fbExample.positive + Examples.fbExample.negative) ∧
    feedbackScore Examples.fbExample =
      ((Examples.fbExample.positive : ℚ) - (Examples.fbExample.negative : ℚ)) /
        ((Examples.fbExample.positive : ℚ) +
          (Examples.fbExample.negative : ℚ)) :=
  ⟨by decide,
   (claimC5_feedback_score Examples.fbExample).1.1 (by decide)⟩

open LogFeedbackJS in
/-- Claim C6: for every habit whose stored feedback history is within the
cap, any sequence of LogFeedback events leaves the history at 20 entries at
most; starting from a habit with no feedback, after exactly 25 feedback
events the history is precisely the last 20 of the 25 entries in order —
the 5 oldest are dropped and the survivors keep their oldest-first order. -/
theorem claimC6_history_cap (habit : Habit) (evs : List FbEvent)
    (hlen : (fbHistory habit).length ≤ 20) :
    (fbHistory (applyFeedbackList habit evs)).length ≤ 20 ∧
    (habit.feedback = none → evs.length = 25 →
      fbHistory (applyFeedbackList habit evs) = (evs.map entryOf).drop 5) := by
  have hself : fbHistory habit = lastTwenty (fbHistory habit) :=
    (lastTwenty_of_le _ hlen).symm
  have hmain := fbHistory_applyFeedbackList evs habit (fbHistory habit) hself
  constructor
  · rw [hmain]
    exact lastTwenty_length _
  · intro hnone h25
    have hnil : fbHistory habit = lastTwenty [] := by
      simp [fbHistory, hnone, lastTwenty]
    have hres := fbHistory_applyFeedbackList evs habit [] hnil
    rw [hres]
    simp [lastTwenty, h25]

open LogFeedbackJS in
/-- Witness for C6: a fresh habit under 25 positive feedback events. -/
theorem claimC6_history_cap_witness :
    ((fbHistory Examples.baseHabit).length ≤ 20) ∧
    ((fbHistory (applyFeedbackList Examples.baseHabit
        Examples.fbEvents25)).length ≤ 20 ∧
     (Examples.baseHabit.feedback = none → Examples.fbEvents25.length = 25 →
      fbHistory (applyFeedbackList Examples.baseHabit Examples.fbEvents25) =
        (Examples.fbEvents25.map entryOf).drop 5)) :=
  ⟨by decide,
   claimC6_history_cap Examples.baseHabit Examples.fbEvents25 (by decide)⟩

open HabitCheck in
/-- Counterexample to C7 as stated: on a snapshot holding an overdue
positive-streak habit `alpha` and a fresh habit `beta`, completing `beta`
through the command leaves `alpha` untouched (streak still 5), whereas the
decay-sweep-then-complete pipeline the claim describes would have decayed
`alpha` to streak 0; the two results differ. -/
theorem claimC7_counterexample :
    findHabit (completeCommand Examples.exCalDay Examples.twoHabitSnap
        "beta" 90000000).2 "alpha" = some Examples.overdueHabit ∧
    findHabit (completeCommandSpecPipeline Examples.exCalDay
        Examples.twoHabitSnap "beta" 90000000).2 "alpha" =
      some { Examples.overdueHabit with
               weight := max MIN_WEIGHT
                 (Examples.overdueHabit.weight - WEIGHT_DECREMENT),
               streak := 0 } ∧
    Examples.overdueHabit.streak = 5 ∧
    completeCommand Examples.exCalDay Examples.twoHabitSnap "beta" 90000000 ≠
      completeCommandSpecPipeline Examples.exCalDay Examples.twoHabitSnap
        "beta" 90000000 := by
  refine ⟨by rfl, by rfl, by rfl, ?_⟩
  intro he
  have h1 : some Examples.overdueHabit =
      some { Examples.overdueHabit with
               weight := max MIN_WEIGHT
                 (Examples.overdueHabit.weight - WEIGHT_DECREMENT),
               streak := 0 } := by
    calc some Examples.overdueHabit
        = findHabit (completeCommand Examples.exCalDay Examples.twoHabitSnap
            "beta" 90000000).2 "alpha" := by rfl
      _ = findHabit (completeCommandSpecPipeline Examples.exCalDay
            Examples.twoHabitSnap "beta" 90000000).2 "alpha" := by rw [he]
      _ = some { Examples.overdueHabit with
                   weight := max MIN_WEIGHT
                     (Examples.overdueHabit.weight - WEIGHT_DECREMENT),
                   streak := 0 } := by rfl
  have h2 := Option.some.inj h1
  have h3 : Examples.overdueHabit.streak = 0 := congrArg Habit.streak h2
  exact absurd h3 (by decide)

open HabitCheck in
/-- Claim C7 (amended): the complete-a-habit command invokes CompleteHabit
directly, with no prior decay sweep over the snapshot; in particular every
habit other than the named one comes back unchanged. -/
theorem claimC7_no_decay_sweep (calDay : ℤ → ℤ)
    (habits : List (String × Habit)) (habitId otherId : String) (now : ℤ)
    (hne : otherId ≠ habitId) :
    completeCommand calDay habits habitId now =
      completeHabit calDay habits habitId now ∧
    findHabit (completeCommand calDay habits habitId now).2 otherId =
      findHabit habits otherId := by
  refine ⟨rfl, ?_⟩
  unfold completeCommand completeHabit
  split
  next => rfl
  next habit hfind =>
    split
    next => rfl
    next hc => exact findHabit_setHabit_ne habits habitId otherId _ hne

open HabitCheck in
/-- Witness for C7 (amended): completing `beta` leaves `alpha` unchanged. -/
theorem claimC7_no_decay_sweep_witness :
    ("alpha" ≠ "beta") ∧
    (completeCommand Examples.exCalDay Examples.twoHabitSnap "beta" 90000000 =
        completeHabit Examples.exCalDay Examples.twoHabitSnap "beta"
          90000000 ∧
      findHabit (completeCommand Examples.exCalDay Examples.twoHabitSnap
          "beta" 90000000).2 "alpha" =
        findHabit Examples.twoHabitSnap "alpha") :=
  ⟨by decide,
   claimC7_no_decay_sweep Examples.exCalDay Examples.twoHabitSnap "beta"
     "alpha" 90000000 (by decide)⟩

open HabitCheck in
/-- Counterexample to C8 as stated: the sweep returns the same value (true)
for a snapshot with exactly one decayed record and for a snapshot with two,
so the value it returns is a did-anything-decay boolean flag, not the count
of records decayed. -/
theorem claimC8_counterexample :
    (applyDecay [("alpha", Examples.overdueHabit)] 90000000).2 =
      (applyDecay [("alpha", Examples.overdueHabit),
        ("gamma", Examples.overdueHabitB)] 90000000).2 ∧
    decayedCount [("alpha", Examples.overdueHabit)] 90000000 = 1 ∧
    decayedCount [("alpha", Examples.overdueHabit),
      ("gamma", Examples.overdueHabitB)] 90000000 = 2 :=
  ⟨by rfl, by rfl, by rfl⟩

open HabitCheck in
/-- Claim C8 (amended): the decay sweep updates the records in place — the
returned snapshot is the per-record decay rule mapped over the input,
touching only the weight and streak fields — and returns a boolean flag that
is true exactly when at least one record was decayed. -/
theorem claimC8_decay_returns_flag (habits : List (String × Habit))
    (now : ℤ) :
    (applyDecay habits now).1 =
      (habits.map fun p => (p.1, decayHabit p.2 now)) ∧
    ((applyDecay habits now).2 = true ↔ 0 < decayedCount habits now) ∧
    (∀ habit : Habit, (decayHabit habit now).id = habit.id ∧
      (decayHabit habit now).name = habit.name ∧
      (decayHabit habit now).description = habit.description ∧
      (decayHabit habit now).frequency = habit.frequency ∧
      (decayHabit habit now).lastCompleted = habit.lastCompleted ∧
      (decayHabit habit now).history = habit.history ∧
      (decayHabit habit now).feedback = habit.feedback) := by
  refine ⟨applyDecay_fst habits now, applyDecay_flag habits now, ?_⟩
  intro habit
  unfold decayHabit
  split
  · exact ⟨rfl, rfl, rfl, rfl, rfl, rfl, rfl⟩
  · exact ⟨rfl, rfl, rfl, rfl, rfl, rfl, rfl⟩

open HabitCheck DailySummary in
/-- Claim C9: the daily summary's completion rate is computed, without
mutating the snapshot, as completedToday / totalDaily over the
daily-frequency habits, reported as a rounded percentage, and is 0 when
there are no daily habits; with 10 daily habits of which 3 are completed
today it reports 30%. -/
theorem claimC9_completion_rate (calDay : ℤ → ℤ)
    (habits : List (String × Habit)) (now : ℤ) :
    ((0 < (habits.filter fun p => p.2.frequency == "daily").length →
        completionRate calDay habits now =
          jsRound
            ((((habits.filter fun p => p.2.frequency == "daily").filter
                fun p => isCompletedToday calDay p.2 now).length : ℚ) /
              (((habits.filter
                fun p => p.2.frequency == "daily").length : ℚ)) * 100)) ∧
      ((habits.filter fun p => p.2.frequency == "daily").length = 0 →
        completionRate calDay habits now = 0)) ∧
    completionRate Examples.exCalDay Examples.tenDailySnap 0 = 30 := by
  refine ⟨⟨?_, ?_⟩, ?_⟩
  · intro h
    simp only [completionRate]
    rw [if_pos h]
  · intro h
    simp only [completionRate]
    rw [if_neg (by omega)]
  · have h1 : ((Examples.tenDailySnap.filter
        fun p => p.2.frequency == "daily").filter
        fun p => isCompletedToday Examples.exCalDay p.2 0).length = 3 := by
      decide
    have h2 : (Examples.tenDailySnap.filter
        fun p => p.2.frequency == "daily").length = 10 := by decide
    simp only [completionRate]
    rw [if_pos (by rw [h2]; norm_num), h1, h2]
    simp only [jsRound]
    rw [Int.floor_eq_iff]
    constructor
    · push_cast
      norm_num
    · push_cast
      norm_num

open HabitCheck DailySummary in
/-- Witness for C9 at the 10-daily-habit snapshot with 3 completed today. -/
theorem claimC9_completion_rate_witness :
    (0 < (Examples.tenDailySnap.filter
        fun p => p.2.frequency == "daily").length) ∧
    completionRate Examples.exCalDay Examples.tenDailySnap 0 =
      jsRound
        ((((Examples.tenDailySnap.filter
            fun p => p.2.frequency == "daily").filter
            fun p => isCompletedToday Examples.exCalDay p.2 0).length : ℚ) /
          (((Examples.tenDailySnap.filter
            fun p => p.2.frequency == "daily").length : ℚ)) * 100) :=
  ⟨by decide,
   (claimC9_completion_rate Examples.exCalDay
     Examples.tenDailySnap 0).1.1 (by decide)⟩

open HabitCheck in
/-- Claim C10: every overdue positive-streak habit with weight below 1.05 —
including weights pushed below 1.0 by negative feedback, whose floor is
0.5 — is set to weight exactly 1.0 by the decay rule, and no habit that
decays ends a sweep below weight 1.0; concretely a sweep raises a decayed
habit of weight 0.7 to weight 1.0, an increase. -/
theorem claimC10_decay_floor (habit : Habit) (now : ℤ)
    (hov : isOverdue habit now = true) (hs : 0 < habit.streak) :
    ((habit.weight < 1.05 → (decayHabit habit now).weight = 1) ∧
      1 ≤ (decayHabit habit now).weight) ∧
    (findHabit (applyDecay [("delta", Examples.lowWeightHabit)]
        90000000).1 "delta" =
      some { Examples.lowWeightHabit with weight := 1, streak := 0 } ∧
     Examples.lowWeightHabit.weight < 1) := by
  have hcond : decayCond habit now = true := by
    unfold decayCond
    rw [hov]
    simpa using hs
  have hmin : MIN_WEIGHT = 1 := by norm_num [MIN_WEIGHT]
  have hdec : WEIGHT_DECREMENT = 1 / 20 := by norm_num [WEIGHT_DECREMENT]
  constructor
  · constructor
    · intro hw
      have hw' : habit.weight < 1 + 1 / 20 := by
        calc habit.weight < 1.05 := hw
          _ = 1 + 1 / 20 := by norm_num
      simp only [decayHabit, hcond, if_true, hmin, hdec]
      rw [max_eq_left]
      linarith
    · simp only [decayHabit, hcond, if_true, hmin]
      exact le_max_left _ _
  · constructor
    · rw [findHabit_applyDecay]
      have hfix : findHabit [("delta", Examples.lowWeightHabit)] "delta" =
          some Examples.lowWeightHabit := by rfl
      rw [hfix]
      have hcond2 : decayCond Examples.lowWeightHabit 90000000 = true := by
        decide
      have hw : max MIN_WEIGHT
          (Examples.lowWeightHabit.weight - WEIGHT_DECREMENT) = 1 := by
        norm_num [MIN_WEIGHT, WEIGHT_DECREMENT, Examples.lowWeightHabit,
          Examples.baseHabit, max_def]
      simp [decayHabit, hcond2, hw]
    · norm_num [Examples.lowWeightHabit, Examples.baseHabit]

open HabitCheck in
/-- Witness for C10 at the overdue streak-3 habit of weight 0.7. -/
theorem claimC10_decay_floor_witness :
    (isOverdue Examples.lowWeightHabit 90000000 = true ∧
      0 < Examples.lowWeightHabit.streak) ∧
    (((Examples.lowWeightHabit.weight < 1.05 →
        (decayHabit Examples.lowWeightHabit 90000000).weight = 1) ∧
      1 ≤ (decayHabit Examples.lowWeightHabit 90000000).weight) ∧
    (findHabit (applyDecay [("delta", Examples.lowWeightHabit)]
        90000000).1 "delta" =
      some { Examples.lowWeightHabit with weight := 1, streak := 0 } ∧
     Examples.lowWeightHabit.weight < 1)) :=
  ⟨⟨by decide, by decide⟩,
   claimC10_decay_floor Examples.lowWeightHabit 90000000 (by decide)
     (by decide)⟩

end Claims
